import Mathlib

/-!
Shallow embedding of the ptadapter package (src/ptadapter/str_utils.py,
src/ptadapter/socks.py, src/ptadapter/enums.py, src/ptadapter/adapters.py)
and theorems settling the frozen claims about its specification.

Conventions used throughout:

* Python str values are modelled as List Char; Python bytes values are
  modelled as List Nat, each element a byte value 0..255.
* Fallible Python code is modelled with Except PyErr.
* asyncio stream reads are modelled by consuming a prefix of an explicit
  input byte list; stream writes accumulate an explicit output byte list.
* Where the code calls into the Python standard library
  (re.split look-behind patterns, urllib.parse.urlsplit host and port
  extraction, ipaddress parsing and compression, hmac and hashlib), the
  observable behaviour of the library routine on the inputs the package
  feeds it is embedded as well, faithfully to CPython semantics for ASCII
  input.
-/

deriving instance DecidableEq for Except

set_option maxRecDepth 100000

namespace PtAdapter

/-- enums.SOCKS4Reply: command reply codes from a SOCKS4 server. -/
inductive SOCKS4Reply where
  | granted
  | rejectedOrFailed
  | noIdentd
  | userIdMismatch
  deriving DecidableEq, Repr

/-- Byte value of each SOCKS4Reply member (enums.py lines 45-50). -/
def SOCKS4Reply.byte : SOCKS4Reply → Nat
  | .granted => 0x5A
  | .rejectedOrFailed => 0x5B
  | .noIdentd => 0x5C
  | .userIdMismatch => 0x5D

/-- Lookup a byte in the SOCKS4Reply enumeration; enums.SOCKS4Reply(b)
raises ValueError when b is not a member value. -/
def socks4ReplyOfByte (b : Nat) : Option SOCKS4Reply :=
  if b = 0x5A then some .granted
  else if b = 0x5B then some .rejectedOrFailed
  else if b = 0x5C then some .noIdentd
  else if b = 0x5D then some .userIdMismatch
  else none

/-- Kinds of Python exceptions raised by the modelled code paths. -/
inductive PyErr where
  | valueError (msg : List Char)
  | indexError
  | typeError (msg : List Char)
  | runtimeError (msg : List Char)
  | assertionError
  | keyError
  | invalidStateError (msg : List Char)
  | incompleteReadError
  | unicodeEncodeError
  | overflowError
  | socks4ConnectError (reply : SOCKS4Reply)
  deriving DecidableEq, Repr

/-! ## str_utils.py -/

/-- Membership test for str_utils.ASCII_LETTERS_UNDERSCORE (line 7). -/
def asciiLetterUnderscore (c : Char) : Bool :=
  (('A' ≤ c && c ≤ 'Z') || ('a' ≤ c && c ≤ 'z') || c = '_')

/-- Membership test for str_utils.ASCII_ALPHANUMERIC_UNDERSCORE (line 8). -/
def asciiAlnumUnderscore (c : Char) : Bool :=
  (asciiLetterUnderscore c || ('0' ≤ c && c ≤ '9'))

/-- str_utils.validate_transport_name (lines 11-26).  Python evaluates
transport_name[0] before anything else, which raises IndexError on the
empty string; on a non-empty string that fails the check the function
raises ValueError. -/
def validate_transport_name (transport_name : List Char) : Except PyErr Unit :=
  match transport_name with
  | [] => .error .indexError
  | c :: rest =>
    if asciiLetterUnderscore c && rest.all asciiAlnumUnderscore then .ok ()
    else .error (.valueError ("Invalid transport name".data))

/-- Character translation table str_utils.PER_CONNECTION_TRANS_TABLE
(lines 29-34): backslash-escape backslash, equal sign and semicolon. -/
def perConnectionTranslate (c : Char) : List Char :=
  if c = '\\' then ['\\', '\\']
  else if c = '=' then ['\\', '=']
  else if c = ';' then ['\\', ';']
  else [c]

/-- str_utils.escape_per_connection_args (lines 37-45). -/
def escape_per_connection_args (in_str : List Char) : List Char :=
  (in_str.map perConnectionTranslate).flatten

/-- Character translation table str_utils.SERVER_OPTS_TRANS_TABLE
(lines 48-52): backslash-escape colon, semicolon and backslash. -/
def serverOptsTranslate (c : Char) : List Char :=
  if c = ':' then ['\\', ':']
  else if c = ';' then ['\\', ';']
  else if c = '\\' then ['\\', '\\']
  else [c]

/-- str_utils.escape_server_options (lines 55-65). -/
def escape_server_options (in_str : List Char) : List Char :=
  (in_str.map serverOptsTranslate).flatten

/-- Model of re.split with the look-behind patterns RE_UNESCAPED_COMMA and
RE_UNESCAPED_EQUAL (str_utils lines 68-69): split the string at every
occurrence of sep that is not immediately preceded by a backslash in the
original string.  The prev argument carries the character preceding the
current position (none at the start).  re.split keeps the pieces between
matches and does not remove any backslashes from them. -/
def splitUnescapedAux (sep : Char) : Option Char → List Char → List (List Char)
  | _, [] => [[]]
  | prev, c :: rest =>
    if c = sep ∧ prev ≠ some '\\' then
      [] :: splitUnescapedAux sep (some c) rest
    else
      match splitUnescapedAux sep (some c) rest with
      | [] => [[c]]
      | g :: gs => (c :: g) :: gs

/-- Split on every unescaped occurrence of sep. -/
def splitUnescaped (sep : Char) (s : List Char) : List (List Char) :=
  splitUnescapedAux sep none s

/-- Insertion into a Python dict modelled as an association list: a later
duplicate key updates the value stored at the original position. -/
def dictInsert (k v : List Char) :
    List (List Char × List Char) → List (List Char × List Char)
  | [] => [(k, v)]
  | (k0, v0) :: rest =>
    if k0 = k then (k0, v) :: rest else (k0, v0) :: dictInsert k v rest

/-- Python dict(pairs) built left to right. -/
def dictOfPairs (l : List (List Char × List Char)) :
    List (List Char × List Char) :=
  l.foldl (fun d kv => dictInsert kv.1 kv.2 d) []

/-- str_utils.parse_smethod_args (lines 72-96): split the input on unescaped
commas, split each piece on unescaped equal signs, and build a dict from the
resulting pairs.  dict(...) raises ValueError when a piece does not split
into exactly two parts.  The code performs no unescaping: the backslashes
remain inside the returned keys and values. -/
def parse_smethod_args (in_str : List Char) :
    Except PyErr (List (List Char × List Char)) := do
  let pairs ← (splitUnescaped ',' in_str).mapM (fun p =>
    match splitUnescaped '=' p with
    | [k, v] => Except.ok (k, v)
    | _ => Except.error (.valueError
        ("dictionary update sequence element has bad length".data)))
  .ok (dictOfPairs pairs)

/-! ## adapters.ServerTransport -/

/-- adapters.ServerTransport (lines 57-68): an initialized server transport
method.  The host comes out of parse_hostport, whose hostname may be None. -/
structure ServerTransport where
  host : Option (List Char)
  port : Nat
  options : Option (List Char)
  deriving DecidableEq, Repr

/-- adapters.ServerTransport.parse_args (lines 70-84): empty or missing
options give an empty dict, as does an options field not starting with
the ARGS: header; otherwise the remainder is fed to parse_smethod_args. -/
def ServerTransport.parse_args (t : ServerTransport) :
    Except PyErr (List (List Char × List Char)) :=
  match t.options with
  | none => .ok []
  | some opts =>
    if opts = [] then .ok []
    else if opts.take 5 = "ARGS:".data then parse_smethod_args (opts.drop 5)
    else .ok []

-- Sanity checks: the split keeps escapes; empty name indexing; name rules.
example : parse_smethod_args ("cert=abc\\,def,iat-mode=0".data) =
    .ok [("cert".data, "abc\\,def".data), ("iat-mode".data, "0".data)] := by
  decide

example : validate_transport_name [] = .error .indexError := by decide

example : validate_transport_name ("obfs4".data) = .ok () := by decide

example : validate_transport_name ("4obfs".data) =
    .error (.valueError ("Invalid transport name".data)) := by decide

/-! ## Decimal and hexadecimal text

Python formats ports with str() / format(port, 'd') and IPv6 hextets with
the x format code; these are embedded as digit-list constructions so that
the round-trip facts about them can be proved by induction. -/

/-- Decimal digit character for a value below 10. -/
def digitChar (n : Nat) : Char := Char.ofNat (48 + n)

/-- ASCII decimal digit test. -/
def isAsciiDigit (c : Char) : Bool := ('0' ≤ c && c ≤ '9')

/-- Value of an ASCII decimal digit character. -/
def decDigitVal (c : Char) : Nat := c.toNat - 48

/-- int(s, 10) on a string of ASCII digits. -/
def foldDecimal (s : List Char) : Nat :=
  s.foldl (fun a c => a * 10 + decDigitVal c) 0

/-- Most-significant-first decimal digit list of n, empty for 0; the first
argument is structural fuel, sufficient whenever n is at most the fuel. -/
def natReprAux : Nat → Nat → List Char
  | 0, _ => []
  | fuel + 1, n =>
    if n = 0 then []
    else natReprAux fuel (n / 10) ++ [digitChar (n % 10)]

/-- Decimal representation of a natural number as produced by Python str(). -/
def natRepr (n : Nat) : List Char :=
  if n = 0 then ['0'] else natReprAux n n

/-- Lowercase hexadecimal digit character for a value below 16. -/
def hexDigitChar (n : Nat) : Char :=
  if n < 10 then Char.ofNat (48 + n) else Char.ofNat (87 + n)

/-- Hexadecimal digit test, both cases, as accepted by int(s, 16). -/
def isHexDigit (c : Char) : Bool :=
  (isAsciiDigit c || ('a' ≤ c && c ≤ 'f') || ('A' ≤ c && c ≤ 'F'))

/-- Value of a hexadecimal digit character. -/
def hexDigitVal (c : Char) : Nat :=
  if isAsciiDigit c then c.toNat - 48
  else if 'a' ≤ c && c ≤ 'f' then c.toNat - 87
  else c.toNat - 55

/-- int(s, 16) on a string of hexadecimal digits. -/
def foldHex (s : List Char) : Nat :=
  s.foldl (fun a c => a * 16 + hexDigitVal c) 0

/-- Most-significant-first lowercase hexadecimal digit list, fuel-based. -/
def hexReprAux : Nat → Nat → List Char
  | 0, _ => []
  | fuel + 1, n =>
    if n = 0 then []
    else hexReprAux fuel (n / 16) ++ [hexDigitChar (n % 16)]

/-- Lowercase hexadecimal representation without padding, as produced by
the Python x format code. -/
def hexRepr (n : Nat) : List Char :=
  if n = 0 then ['0'] else hexReprAux n n

/-! ## ipaddress parsing and canonical text

Model of the parts of the Python ipaddress module used by
str_utils.join_hostport: ip_address(s) (strict IPv4 dotted-quad parsing
with no leading zeros, RFC 4291 IPv6 parsing with one optional double
colon, an optional embedded IPv4 tail, and an optional nonempty scope id
after a percent sign) and the compressed attribute (canonical dotted quad
for IPv4; lowercase hextets with the longest zero run, leftmost on ties,
replaced by a double colon for IPv6). -/

/-- str.split on a single separator character. -/
def splitOnChar (sep : Char) : List Char → List (List Char)
  | [] => [[]]
  | c :: rest =>
    if c = sep then [] :: splitOnChar sep rest
    else
      match splitOnChar sep rest with
      | [] => [[c]]
      | g :: gs => (c :: g) :: gs

/-- ipaddress._parse_octet: nonempty, decimal digits only, at most three
characters, no leading zero, value at most 255. -/
def parseOctet (s : List Char) : Option Nat :=
  match s with
  | [] => none
  | c :: rest =>
    if ¬ (c :: rest).all isAsciiDigit then none
    else if 3 < (c :: rest).length then none
    else if c = '0' ∧ rest ≠ [] then none
    else
      let n := foldDecimal (c :: rest)
      if 255 < n then none else some n

/-- ipaddress.IPv4Address(s): exactly four octets separated by dots. -/
def ipv4Parse (s : List Char) : Option (Nat × Nat × Nat × Nat) :=
  match (splitOnChar '.' s).mapM parseOctet with
  | some [a, b, c, d] => some (a, b, c, d)
  | _ => none

/-- Canonical dotted-quad text of a parsed IPv4 address (the compressed
attribute of IPv4Address). -/
def compress4 (a : Nat × Nat × Nat × Nat) : List Char :=
  natRepr a.1 ++ '.' :: natRepr a.2.1 ++ '.' :: natRepr a.2.2.1 ++
    '.' :: natRepr a.2.2.2

/-- ipaddress._parse_hextet: nonempty, hexadecimal digits only, at most
four characters. -/
def parseHextet (s : List Char) : Option Nat :=
  match s with
  | [] => none
  | _ =>
    if ¬ s.all isHexDigit then none
    else if 4 < s.length then none
    else some (foldHex s)

/-- Fold a list of 16-bit groups into one integer, high group first. -/
def foldHextets (l : List Nat) : Nat :=
  l.foldl (fun a h => a * 65536 + h) 0

/-- ipaddress._ip_int_from_string for IPv6 without a scope id: split on
colons, replace an embedded IPv4 tail by its two hextets, allow at most
one run of empties standing for the double colon (with the leading or
trailing empty pair of a boundary double colon handled as in CPython),
and fold the groups around the skipped zeros. -/
def ipv6ParseNoScope (s : List Char) : Option Nat :=
  if s = [] then none
  else
    let parts0 := splitOnChar ':' s
    if parts0.length < 3 then none
    else
      let withV4 : Option (List (List Char)) :=
        match parts0.getLast? with
        | none => none
        | some last =>
          if '.' ∈ last then
            match ipv4Parse last with
            | some (a, b, c, d) =>
              some (parts0.dropLast ++
                [hexRepr (a * 256 + b), hexRepr (c * 256 + d)])
            | none => none
          else some parts0
      match withV4 with
      | none => none
      | some parts =>
        if 9 < parts.length then none
        else
          let emptyInner := (List.range parts.length).filter
            (fun i => decide (0 < i) && decide (i + 1 < parts.length) &&
              decide (parts.get? i = some []))
          match emptyInner with
          | [] =>
            if parts.length ≠ 8 then none
            else if parts.head? = some ([] : List Char) then none
            else if parts.getLast? = some ([] : List Char) then none
            else (parts.mapM parseHextet).map foldHextets
          | [skip] =>
            if parts.head? = some ([] : List Char) ∧ skip ≠ 1 then none
            else if parts.getLast? = some ([] : List Char) ∧
                parts.length - skip - 1 ≠ 1 then none
            else
              let hi := if parts.head? = some ([] : List Char) then skip - 1
                else skip
              let lo0 := parts.length - skip - 1
              let lo := if parts.getLast? = some ([] : List Char) then lo0 - 1
                else lo0
              if 8 ≤ hi + lo then none
              else
                let skipped := 8 - (hi + lo)
                match (parts.take hi).mapM parseHextet,
                    (parts.drop (parts.length - lo)).mapM parseHextet with
                | some hxh, some hxl =>
                  some (foldHextets hxh * 2 ^ (16 * (skipped + lo)) +
                    foldHextets hxl)
                | _, _ => none
          | _ => none

/-- ipaddress.IPv6Address(s) together with the optional scope id after a
percent sign (CPython 3.9 and later): the scope id must be nonempty and
must not itself contain a percent sign. -/
def ipv6Parse (s : List Char) : Option (Nat × Option (List Char)) :=
  let addr := s.takeWhile (fun c => c != '%')
  let rest := s.dropWhile (fun c => c != '%')
  match rest with
  | [] => (ipv6ParseNoScope s).map (fun v => (v, none))
  | _ :: scope =>
    if scope = [] then none
    else if '%' ∈ scope then none
    else (ipv6ParseNoScope addr).map (fun v => (v, some scope))

/-- An address returned by ipaddress.ip_address. -/
inductive IPAddr where
  | v4 (octets : Nat × Nat × Nat × Nat)
  | v6 (value : Nat) (scope : Option (List Char))
  deriving DecidableEq, Repr

/-- ipaddress.ip_address(s): try IPv4 first, then IPv6. -/
def ipParse (s : List Char) : Option IPAddr :=
  match ipv4Parse s with
  | some a => some (.v4 a)
  | none =>
    match ipv6Parse s with
    | some (v, sc) => some (.v6 v sc)
    | none => none

/-- The eight 16-bit groups of an IPv6 integer, high first. -/
def v6Hextets (ip : Nat) : List Nat :=
  (List.range 8).map (fun i => (ip >>> (16 * (7 - i))) % 65536)

/-- The scan of ipaddress._compress_hextets: the start and length of the
longest run of groups equal to the single character 0, leftmost on ties.
The fold state is current-run start, current-run length, best start, best
length and position. -/
def bestZeroRun (hx : List (List Char)) : Nat × Nat :=
  let st := hx.foldl
    (fun (st : Nat × Nat × Nat × Nat × Nat) part =>
      let (curStart, curLen, bestStart, bestLen, idx) := st
      if part = ['0'] then
        let curStart := if curLen = 0 then idx else curStart
        let curLen := curLen + 1
        if bestLen < curLen then (curStart, curLen, curStart, curLen, idx + 1)
        else (curStart, curLen, bestStart, bestLen, idx + 1)
      else (0, 0, bestStart, bestLen, idx + 1))
    (0, 0, 0, 0, 0)
  (st.2.2.1, st.2.2.2.1)

/-- ipaddress._compress_hextets: replace the best zero run (when longer
than one group) by an empty group, padding with another empty group when
the run touches either end of the address. -/
def compressHextets (hx : List (List Char)) : List (List Char) :=
  let bs := (bestZeroRun hx).1
  let bl := (bestZeroRun hx).2
  if 1 < bl then
    let hx1 := if bs + bl = hx.length then hx ++ [[]] else hx
    let hx2 := hx1.take bs ++ [] :: hx1.drop (bs + bl)
    if bs = 0 then [] :: hx2 else hx2
  else hx

/-- The compressed attribute of IPv6Address: colon-joined compressed
hextets, followed by the scope id when present. -/
def compress6 (ip : Nat) (scope : Option (List Char)) : List Char :=
  List.intercalate [':'] (compressHextets ((v6Hextets ip).map hexRepr)) ++
    (match scope with
     | none => []
     | some sc => '%' :: sc)

/-- str_utils.join_hostport (lines 112-125): a host that ip_address cannot
parse is used verbatim as host:port; a parsed IPv4 address gives its
compressed form followed by :port; a parsed IPv6 address is bracketed. -/
def join_hostport (host : List Char) (port : Nat) : List Char :=
  match ipParse host with
  | none => host ++ ':' :: natRepr port
  | some (.v4 a) => compress4 a ++ ':' :: natRepr port
  | some (.v6 v sc) => '[' :: (compress6 v sc ++ ']' :: ':' :: natRepr port)

-- Sanity checks of the ipaddress model against CPython behaviour.
example : ipParse ("Example.com".data) = none := by decide
example : ipParse ("127.0.0.1".data) = some (.v4 (127, 0, 0, 1)) := by decide
example : ipParse ("::1".data) = some (.v6 1 none) := by decide
example : compress6 1 none = "::1".data := by decide
example : ipv6ParseNoScope ("2001:db8::8:800:200c:417a".data) =
    some 0x20010db80000000000080800200c417a := by decide
example : compress6 0x20010db80000000000080800200c417a none =
    "2001:db8::8:800:200c:417a".data := by decide
example : ipParse ("::ffff:1.2.3.4".data) =
    some (.v6 0xffff01020304 none) := by decide
example : compress6 0 none = "::".data := by decide
example : ipv4Parse ("01.2.3.4".data) = none := by decide
example : join_hostport ("Example.com".data) 80 = "Example.com:80".data := by
  decide
example : join_hostport ("0:0:0:0:0:0:0:1".data) 443 = "[::1]:443".data := by
  decide

/-! ## urlsplit model and parse_hostport

str_utils.parse_hostport feeds its argument, prefixed with two slashes, to
urllib.parse.urlsplit and reads the hostname and port attributes of the
result.  The behaviour of those attributes on a //netloc URL is embedded
below, faithful to CPython for ASCII input: the netloc stops at the first
slash, question mark or hash; everything up to the last at sign is
userinfo and dropped; a bracketed host is the text between the opening
bracket and the first closing bracket with the port after the following
colon, otherwise the host is the text before the first colon and the port
the text after it; the hostname is lowercased (modelled for ASCII) and
becomes None when empty; the port must be decimal digits and at most
65535, else ValueError. -/

/-- ASCII lowercasing of one character, as str.lower acts on the ASCII
strings the adapter feeds urlsplit. -/
def lowerChar (c : Char) : Char :=
  if 'A' ≤ c && c ≤ 'Z' then Char.ofNat (c.toNat + 32) else c

/-- Characters that end the netloc of a relative reference. -/
def netlocChar (c : Char) : Bool := !(c == '/' || c == '?' || c == '#')

/-- Everything after the last at sign; the whole string when absent. -/
def afterLastAt (s : List Char) : List Char :=
  (s.reverse.takeWhile (fun c => c != '@')).reverse

/-- Text before the first occurrence of sep (whole string when absent). -/
def partBefore (sep : Char) (s : List Char) : List Char :=
  s.takeWhile (fun c => c != sep)

/-- Text after the first occurrence of sep (empty when absent). -/
def partAfter (sep : Char) (s : List Char) : List Char :=
  (s.dropWhile (fun c => c != sep)).drop 1

/-- Hostname and port strings extracted by urlsplit from //hostport. -/
def urlsplitHostPort (hostport : List Char) : List Char × List Char :=
  let hostinfo := afterLastAt (hostport.takeWhile netlocChar)
  if '[' ∈ hostinfo then
    let bracketed := partAfter '[' hostinfo
    (partBefore ']' bracketed, partAfter ':' (partAfter ']' bracketed))
  else
    (partBefore ':' hostinfo, partAfter ':' hostinfo)

/-- str_utils.parse_hostport (lines 99-109): split //hostport with
urlsplit; a None port (empty port text) raises ValueError with the Missing
port message; the urlsplit port attribute itself raises ValueError for a
non-numeric or out-of-range port; the returned hostname is the lowercased
host text, or None when it is empty. -/
def parse_hostport (hostport : List Char) :
    Except PyErr (Option (List Char) × Nat) :=
  let hp := urlsplitHostPort hostport
  if hp.2 = [] then .error (.valueError ("Missing port".data))
  else if ¬ hp.2.all isAsciiDigit then
    .error (.valueError ("Port could not be cast to integer value".data))
  else
    let p := foldDecimal hp.2
    if 65535 < p then .error (.valueError ("Port out of range 0-65535".data))
    else .ok ((if hp.1 = [] then none else some (hp.1.map lowerChar)), p)

-- Sanity checks of the urlsplit model against CPython behaviour.
example : parse_hostport ("Example.com:80".data) =
    .ok (some ("example.com".data), 80) := by decide
example : parse_hostport ("[::1]:443".data) = .ok (some ("::1".data), 443) := by
  decide
example : parse_hostport ("127.0.0.1:54321".data) =
    .ok (some ("127.0.0.1".data), 54321) := by decide
example : parse_hostport ("example.com".data) =
    .error (.valueError ("Missing port".data)) := by decide
example : parse_hostport ("0.0.0.0:443".data) =
    .ok (some ("0.0.0.0".data), 443) := by decide

/-! ## Lemmas about the decimal codec -/

theorem decDigitVal_digitChar (m : Nat) (hm : m < 10) :
    decDigitVal (digitChar m) = m := by
  interval_cases m <;> decide

theorem isAsciiDigit_digitChar (m : Nat) (hm : m < 10) :
    isAsciiDigit (digitChar m) = true := by
  interval_cases m <;> decide

theorem foldDecimal_go_natReprAux (fuel : Nat) :
    ∀ n acc, n ≤ fuel →
      List.foldl (fun a c => a * 10 + decDigitVal c) acc (natReprAux fuel n) =
        acc * 10 ^ (natReprAux fuel n).length + n := by
  induction fuel with
  | zero =>
    intro n acc hn
    interval_cases n
    simp [natReprAux]
  | succ fuel ih =>
    intro n acc hn
    by_cases h0 : n = 0
    · subst h0; simp [natReprAux]
    · have hdiv : n / 10 ≤ fuel := by
        have h1 : n / 10 < n := Nat.div_lt_self (Nat.pos_of_ne_zero h0)
          (by norm_num)
        omega
      have hm : decDigitVal (digitChar (n % 10)) = n % 10 :=
        decDigitVal_digitChar _ (Nat.mod_lt _ (by norm_num))
      simp only [natReprAux, if_neg h0, List.foldl_append, List.foldl_cons,
        List.foldl_nil, List.length_append, List.length_cons,
        List.length_nil, hm, ih (n / 10) acc hdiv]
      generalize (natReprAux fuel (n / 10)).length = L
      have hpow : 10 ^ (L + (0 + 1)) = 10 ^ L * 10 := by ring
      rw [hpow]
      have hmul : acc * (10 ^ L * 10) = acc * 10 ^ L * 10 := by ring
      rw [hmul]
      omega

theorem natReprAux_all_digits (fuel : Nat) :
    ∀ n, (natReprAux fuel n).all isAsciiDigit = true := by
  induction fuel with
  | zero => intro n; simp [natReprAux]
  | succ fuel ih =>
    intro n
    by_cases h0 : n = 0
    · simp [natReprAux, h0]
    · simp only [natReprAux, if_neg h0, List.all_append, List.all_cons,
        List.all_nil, ih (n / 10), Bool.true_and, Bool.and_true]
      exact isAsciiDigit_digitChar _ (Nat.mod_lt _ (by norm_num))

theorem natRepr_all_digits (n : Nat) : (natRepr n).all isAsciiDigit = true := by
  unfold natRepr
  split
  · decide
  · exact natReprAux_all_digits n n

theorem foldDecimal_natRepr (n : Nat) : foldDecimal (natRepr n) = n := by
  unfold natRepr foldDecimal
  split
  · rename_i h; rw [h]; decide
  · have := foldDecimal_go_natReprAux n n 0 le_rfl
    simpa using this

theorem natRepr_ne_nil (n : Nat) : natRepr n ≠ [] := by
  unfold natRepr
  split
  · simp
  · rename_i h0
    intro h
    have := foldDecimal_go_natReprAux n n 0 le_rfl
    rw [h] at this
    simp at this
    exact h0 this.symm

/-! ## Generic list and character lemmas -/

theorem all_mono {p q : Char → Bool} (hpq : ∀ c, p c = true → q c = true)
    (l : List Char) (h : l.all p = true) : l.all q = true := by
  rw [List.all_eq_true] at *
  exact fun x hx => hpq x (h x hx)

theorem all_not_mem {p : Char → Bool} {l : List Char} {c : Char}
    (h : l.all p = true) (hc : p c = false) : c ∉ l := by
  intro hm
  rw [List.all_eq_true] at h
  have := h c hm
  rw [hc] at this
  cases this

theorem beq_false_of_pred {p : Char → Bool} {c bad : Char}
    (h : p c = true) (hb : p bad = false) : (c == bad) = false := by
  rcases eq_or_ne c bad with rfl | hne
  · rw [h] at hb; cases hb
  · simpa using hne

theorem bne_true_of_pred {p : Char → Bool} {c bad : Char}
    (h : p c = true) (hb : p bad = false) : (c != bad) = true := by
  rcases eq_or_ne c bad with rfl | hne
  · rw [h] at hb; cases hb
  · simpa using hne

theorem takeWhile_eq_self_of_all {p : Char → Bool} (l : List Char) :
    l.all p = true → l.takeWhile p = l := by
  induction l with
  | nil => intro _; rfl
  | cons c cs ih =>
    intro h
    rw [List.all_cons, Bool.and_eq_true] at h
    simp [List.takeWhile_cons, h.1, ih h.2]

theorem takeWhile_append_stop {p : Char → Bool} {y : Char} (ys : List Char)
    (hy : p y = false) :
    ∀ xs : List Char, xs.all p = true → (xs ++ y :: ys).takeWhile p = xs := by
  intro xs
  induction xs with
  | nil => intro _; simp [List.takeWhile_cons, hy]
  | cons c cs ih =>
    intro h
    rw [List.all_cons, Bool.and_eq_true] at h
    simp [List.takeWhile_cons, h.1, ih h.2]

theorem dropWhile_append_stop {p : Char → Bool} {y : Char} (ys : List Char)
    (hy : p y = false) :
    ∀ xs : List Char, xs.all p = true →
      (xs ++ y :: ys).dropWhile p = y :: ys := by
  intro xs
  induction xs with
  | nil => intro _; simp [List.dropWhile_cons, hy]
  | cons c cs ih =>
    intro h
    rw [List.all_cons, Bool.and_eq_true] at h
    simp [List.dropWhile_cons, h.1, ih h.2]

theorem partBefore_append {sep : Char} (xs ys : List Char)
    (h : xs.all (fun c => c != sep) = true) :
    partBefore sep (xs ++ sep :: ys) = xs :=
  takeWhile_append_stop ys (by simp) xs h

theorem partAfter_append {sep : Char} (xs ys : List Char)
    (h : xs.all (fun c => c != sep) = true) :
    partAfter sep (xs ++ sep :: ys) = ys := by
  unfold partAfter
  rw [dropWhile_append_stop ys (by simp) xs h]
  rfl

theorem partAfter_cons_self (sep : Char) (rest : List Char) :
    partAfter sep (sep :: rest) = rest := by
  simp [partAfter, List.dropWhile_cons]

theorem afterLastAt_eq_self (l : List Char)
    (h : l.all (fun c => c != '@') = true) : afterLastAt l = l := by
  unfold afterLastAt
  rw [takeWhile_eq_self_of_all _ (by simpa using h), List.reverse_reverse]

/-- Absence of uppercase ASCII letters in a character. -/
def noUpperChar (c : Char) : Bool := !('A' ≤ c && c ≤ 'Z')

theorem lowerChar_eq_self {c : Char} (h : noUpperChar c = true) :
    lowerChar c = c := by
  unfold noUpperChar at h
  rw [Bool.not_eq_eq_eq_not, Bool.not_true] at h
  simp [lowerChar, h]

theorem map_lowerChar_eq_self (l : List Char)
    (h : l.all noUpperChar = true) : l.map lowerChar = l := by
  induction l with
  | nil => rfl
  | cons c cs ih =>
    rw [List.all_cons, Bool.and_eq_true] at h
    simp [lowerChar_eq_self h.1, ih h.2]

/-! ## Canonical hosts and the hostport round trip -/

/-- ASCII characters that can appear in a non-bracketed host without
disturbing the urlsplit extraction: no slash, question mark, hash, at
sign, brackets or colon. -/
def goodHostChar (c : Char) : Bool :=
  (c.toNat < 128) && !(c == '/' || c == '?' || c == '#' || c == '@' ||
    c == '[' || c == ']' || c == ':')

/-- ASCII characters that can appear inside a bracketed IPv6 host: as
goodHostChar but with the colon allowed. -/
def goodV6Char (c : Char) : Bool :=
  (c.toNat < 128) && !(c == '/' || c == '?' || c == '#' || c == '@' ||
    c == '[' || c == ']')

theorem goodHostChar_netloc {c : Char} (h : goodHostChar c = true) :
    netlocChar c = true := by
  simp [netlocChar,
    beq_false_of_pred h (show goodHostChar '/' = false by decide),
    beq_false_of_pred h (show goodHostChar '?' = false by decide),
    beq_false_of_pred h (show goodHostChar '#' = false by decide)]

theorem goodV6Char_netloc {c : Char} (h : goodV6Char c = true) :
    netlocChar c = true := by
  simp [netlocChar,
    beq_false_of_pred h (show goodV6Char '/' = false by decide),
    beq_false_of_pred h (show goodV6Char '?' = false by decide),
    beq_false_of_pred h (show goodV6Char '#' = false by decide)]

theorem digit_netloc {c : Char} (h : isAsciiDigit c = true) :
    netlocChar c = true := by
  simp [netlocChar, beq_false_of_pred h (show isAsciiDigit '/' = false by decide),
    beq_false_of_pred h (show isAsciiDigit '?' = false by decide),
    beq_false_of_pred h (show isAsciiDigit '#' = false by decide)]

theorem goodHostChar_ne_at {c : Char} (h : goodHostChar c = true) :
    (c != '@') = true :=
  bne_true_of_pred h (by decide)

theorem goodV6Char_ne_at {c : Char} (h : goodV6Char c = true) :
    (c != '@') = true :=
  bne_true_of_pred h (by decide)

theorem digit_ne_at {c : Char} (h : isAsciiDigit c = true) :
    (c != '@') = true :=
  bne_true_of_pred h (by decide)

theorem goodHostChar_ne_colon {c : Char} (h : goodHostChar c = true) :
    (c != ':') = true :=
  bne_true_of_pred h (by decide)

theorem goodV6Char_ne_rbracket {c : Char} (h : goodV6Char c = true) :
    (c != ']') = true :=
  bne_true_of_pred h (by decide)

/-- urlsplit host and port extraction on host:port when the host contains
no separator-relevant characters and the port text is decimal digits. -/
theorem urlsplitHostPort_plain (h ds : List Char)
    (hh : h.all goodHostChar = true) (hds : ds.all isAsciiDigit = true) :
    urlsplitHostPort (h ++ ':' :: ds) = (h, ds) := by
  have hnet : (h ++ ':' :: ds).all netlocChar = true := by
    rw [List.all_append, List.all_cons, Bool.and_eq_true, Bool.and_eq_true]
    exact ⟨all_mono (fun c => goodHostChar_netloc) h hh,
      by decide, all_mono (fun c => digit_netloc) ds hds⟩
  have hat : (h ++ ':' :: ds).all (fun c => c != '@') = true := by
    rw [List.all_append, List.all_cons, Bool.and_eq_true, Bool.and_eq_true]
    exact ⟨all_mono (fun c => goodHostChar_ne_at) h hh,
      by decide, all_mono (fun c => digit_ne_at) ds hds⟩
  have hbr : '[' ∉ h ++ ':' :: ds := by
    rw [List.mem_append, List.mem_cons]
    push_neg
    exact ⟨all_not_mem hh (by decide),
      by decide, all_not_mem hds (by decide)⟩
  have hcolon : h.all (fun c => c != ':') = true :=
    all_mono (fun c => goodHostChar_ne_colon) h hh
  unfold urlsplitHostPort
  rw [takeWhile_eq_self_of_all _ hnet, afterLastAt_eq_self _ hat,
    if_neg hbr, partBefore_append _ _ hcolon, partAfter_append _ _ hcolon]

/-- urlsplit host and port extraction on a bracketed host. -/
theorem urlsplitHostPort_bracket (h ds : List Char)
    (hh : h.all goodV6Char = true) (hds : ds.all isAsciiDigit = true) :
    urlsplitHostPort ('[' :: (h ++ ']' :: ':' :: ds)) = (h, ds) := by
  have hnet : ('[' :: (h ++ ']' :: ':' :: ds)).all netlocChar = true := by
    rw [List.all_cons, List.all_append, List.all_cons, List.all_cons,
      Bool.and_eq_true, Bool.and_eq_true, Bool.and_eq_true, Bool.and_eq_true]
    exact ⟨by decide, all_mono (fun c => goodV6Char_netloc) h hh,
      by decide, by decide, all_mono (fun c => digit_netloc) ds hds⟩
  have hat : ('[' :: (h ++ ']' :: ':' :: ds)).all (fun c => c != '@') = true := by
    rw [List.all_cons, List.all_append, List.all_cons, List.all_cons,
      Bool.and_eq_true, Bool.and_eq_true, Bool.and_eq_true, Bool.and_eq_true]
    exact ⟨by decide, all_mono (fun c => goodV6Char_ne_at) h hh,
      by decide, by decide, all_mono (fun c => digit_ne_at) ds hds⟩
  have hrb : h.all (fun c => c != ']') = true :=
    all_mono (fun c => goodV6Char_ne_rbracket) h hh
  unfold urlsplitHostPort
  rw [takeWhile_eq_self_of_all _ hnet, afterLastAt_eq_self _ hat,
    if_pos (List.mem_cons_self _ _), partAfter_cons_self]
  show (partBefore ']' (h ++ ']' :: ':' :: ds),
    partAfter ':' (partAfter ']' (h ++ ']' :: ':' :: ds))) = (h, ds)
  rw [partBefore_append _ _ hrb, partAfter_append _ _ hrb,
    partAfter_cons_self]

/-- parse_hostport on a string whose urlsplit extraction is a nonempty
lowercase host together with the decimal digits of a valid port. -/
theorem parse_hostport_parts (s h : List Char) (p : Nat)
    (hsplit : urlsplitHostPort s = (h, natRepr p)) (hne : h ≠ [])
    (hupper : h.all noUpperChar = true) (hp : p ≤ 65535) :
    parse_hostport s = .ok (some h, p) := by
  unfold parse_hostport
  rw [hsplit]
  simp only
  rw [if_neg (natRepr_ne_nil p),
    if_neg (by rw [natRepr_all_digits p]; simp),
    foldDecimal_natRepr, if_neg (by omega), if_neg hne,
    map_lowerChar_eq_self _ hupper]

/-- Decidable canonical-form condition on a host string under which
parse_hostport inverts join_hostport: the host is nonempty, contains no
characters that steer the urlsplit extraction, has no uppercase ASCII
letters (urlsplit lowercases the hostname), and an IP-literal host is
spelled exactly in the compressed canonical form of the ipaddress
module. -/
def canonicalHostB (h : List Char) : Bool :=
  match ipParse h with
  | none => decide (h ≠ []) && h.all goodHostChar && h.all noUpperChar
  | some (.v4 a) => decide (compress4 a = h) && decide (h ≠ []) &&
      h.all goodHostChar && h.all noUpperChar
  | some (.v6 v sc) => decide (compress6 v sc = h) && decide (h ≠ []) &&
      h.all goodV6Char && h.all noUpperChar

/-- Claim C4 counterexample: the claim quantifies over every valid endpoint
whose host is an IPv4 literal, IPv6 literal or DNS name, but for the DNS
name Example.com with port 80 the round trip returns the lowercased host
example.com, not the original Example.com: urlsplit lowercases the
hostname, so parse_hostport does not invert join_hostport on this valid
endpoint. -/
theorem parse_join_hostport_lowercases_host :
    parse_hostport (join_hostport ("Example.com".data) 80) =
      .ok (some ("example.com".data), 80) ∧
    ("example.com".data : List Char) ≠ "Example.com".data := by
  constructor
  · decide
  · decide

/-- Claim C4 amended: parse_hostport inverts join_hostport exactly on
canonically spelled endpoints: the port is between 1 and 65535 and the
host is nonempty, free of URL-separator characters, has no uppercase
ASCII letters (parse_hostport returns the urlsplit hostname, which is
lowercased), and, when it is an IP literal, is written exactly in the
compressed canonical form of the ipaddress module (join_hostport emits
the compressed form, not the original spelling).  join_hostport produces
host:port for IPv4 and names and a bracketed [host]:port for IPv6, and
parse_hostport recovers the host and port exactly. -/
theorem parse_join_hostport_roundtrip_canonical (host : List Char) (p : Nat)
    (hc : canonicalHostB host = true) (_hp1 : 1 ≤ p) (hp2 : p ≤ 65535) :
    parse_hostport (join_hostport host p) = .ok (some host, p) := by
  unfold canonicalHostB at hc
  unfold join_hostport
  cases hip : ipParse host with
  | none =>
    rw [hip] at hc
    simp only [Bool.and_eq_true, decide_eq_true_eq] at hc
    obtain ⟨⟨hne, hgood⟩, hupper⟩ := hc
    exact parse_hostport_parts _ _ p
      (urlsplitHostPort_plain _ _ hgood (natRepr_all_digits p))
      hne hupper hp2
  | some a =>
    cases a with
    | v4 oct =>
      rw [hip] at hc
      simp only [Bool.and_eq_true, decide_eq_true_eq] at hc
      obtain ⟨⟨⟨hEq, hne⟩, hgood⟩, hupper⟩ := hc
      simp only [hEq]
      exact parse_hostport_parts _ _ p
        (urlsplitHostPort_plain _ _ hgood (natRepr_all_digits p))
        hne hupper hp2
    | v6 v sc =>
      rw [hip] at hc
      simp only [Bool.and_eq_true, decide_eq_true_eq] at hc
      obtain ⟨⟨⟨hEq, hne⟩, hgood⟩, hupper⟩ := hc
      simp only [hEq]
      exact parse_hostport_parts _ _ p
        (urlsplitHostPort_bracket _ _ hgood (natRepr_all_digits p))
        hne hupper hp2

/-- Witness for the amended claim C4 at a concrete canonical endpoint. -/
theorem parse_join_hostport_roundtrip_canonical_witness :
    canonicalHostB ("localhost".data) = true ∧
    parse_hostport (join_hostport ("localhost".data) 8080) =
      .ok (some ("localhost".data), 8080) :=
  ⟨by decide, parse_join_hostport_roundtrip_canonical _ _ (by decide)
    (by decide) (by decide)⟩

/-! ## socks.py -/

/-- str.encode with the ascii codec: fails on any character at or above
code point 128, otherwise yields the code points as bytes. -/
def encodeAscii (s : List Char) : Except PyErr (List Nat) :=
  if s.all (fun c => decide (c.toNat < 128)) then .ok (s.map Char.toNat)
  else .error .unicodeEncodeError

/-- socks.encode_args (lines 19-28): semicolon-joined key=value pairs with
per-connection escaping applied to keys and values, ASCII-encoded.
Byte 61 is the equal sign, byte 59 the semicolon. -/
def encode_args (args : List (List Char × List Char)) :
    Except PyErr (List Nat) := do
  let pieces ← args.mapM (fun kv => do
    let k ← encodeAscii (escape_per_connection_args kv.1)
    let v ← encodeAscii (escape_per_connection_args kv.2)
    return k ++ 61 :: v)
  return (List.intercalate [59] pieces)

/-- int.to_bytes(length, big): big-endian bytes, OverflowError when the
value does not fit. -/
def intToBytes (len value : Nat) : Except PyErr (List Nat) :=
  if value < 256 ^ len then
    .ok ((List.range len).map (fun i => value / 256 ^ (len - 1 - i) % 256))
  else .error .overflowError

/-- StreamReader.readexactly(n): n bytes from the head of the input, or
IncompleteReadError when the input is shorter. -/
def readExactly (n : Nat) (input : List Nat) : Option (List Nat × List Nat) :=
  if n ≤ input.length then some (input.take n, input.drop n) else none

/-- Result of running a modelled stream protocol against a given input
byte stream: the bytes written to the stream, and either the unread
remainder of the input on success or the exception raised. -/
structure SocksRun where
  written : List Nat
  outcome : Except PyErr (List Nat)
  deriving DecidableEq, Repr

/-- Truthiness of the Optional[Dict] args parameter: None and the empty
dict are both falsy. -/
def argsTruthy (args : Option (List (List Char × List Char))) : Bool :=
  match args with
  | none => false
  | some l => !l.isEmpty

/-- The password chosen by negotiate_socks5_userpass (lines 43-45): the
encoded args beyond the first 255 bytes, or the single NUL sentinel byte
when nothing remains. -/
def socksPassword (argsBytes : List Nat) : List Nat :=
  if argsBytes.drop 255 = [] then [0] else argsBytes.drop 255

/-- The authentication phase of socks.negotiate_socks5_userpass (lines
38-72).  With truthy args: encode them, raise ValueError before writing
anything when the encoding exceeds 510 bytes, split the encoding into
username (first 255 bytes) and password (remainder, or the NUL sentinel),
offer exactly the USERNAME_PASSWORD method (value 2), check the ack, send
the RFC 1929 sub-negotiation and check its status byte.  With falsy args:
offer exactly the NO_AUTH method (value 0) and check the ack.  The
length bytes of the username and password always fit one byte thanks to
the 510-byte guard. -/
def socks5AuthPhase (args : Option (List (List Char × List Char)))
    (input : List Nat) : SocksRun :=
  if argsTruthy args then
    match encode_args (args.getD []) with
    | .error e => ⟨[], .error e⟩
    | .ok argsBytes =>
      if 255 * 2 < argsBytes.length then
        ⟨[], .error (.valueError ("Encoded args too long".data))⟩
      else
        let username := argsBytes.take 255
        let password := socksPassword argsBytes
        let w1 : List Nat := [5, 1, 2]
        match readExactly 2 input with
        | none => ⟨w1, .error .incompleteReadError⟩
        | some (buf, rest) =>
          if buf.head? ≠ some 5 then ⟨w1, .error .assertionError⟩
          else if buf.drop 1 ≠ [2] then
            ⟨w1, .error (.runtimeError
              ("PT rejected userpass auth method".data))⟩
          else
            let w2 := w1 ++ 1 :: username.length :: username ++
              password.length :: password
            match readExactly 2 rest with
            | none => ⟨w2, .error .incompleteReadError⟩
            | some (buf2, rest2) =>
              if buf2.head? ≠ some 1 then ⟨w2, .error .assertionError⟩
              else if buf2.drop 1 ≠ [0] then
                ⟨w2, .error (.runtimeError
                  ("PT rejected username password".data))⟩
              else ⟨w2, .ok rest2⟩
  else
    let w1 : List Nat := [5, 1, 0]
    match readExactly 2 input with
    | none => ⟨w1, .error .incompleteReadError⟩
    | some (buf, rest) =>
      if buf.head? ≠ some 5 then ⟨w1, .error .assertionError⟩
      else if buf.drop 1 ≠ [0] then
        ⟨w1, .error (.runtimeError ("PT rejected noauth auth method".data))⟩
      else ⟨w1, .ok rest⟩

/-- socks.negotiate_socks4_userid (lines 114-141): the host must parse as
an IPv4 literal, else ValueError before anything is written; the CONNECT
request is version 4, command 1, big-endian port, packed address, the
encoded args and a terminating NUL; the reply is 8 bytes whose first byte
must be 0 (assert); the second byte is looked up in the SOCKS4Reply
enumeration, which raises ValueError when the byte is not a member value,
and any recognized reply other than GRANTED raises PTSOCKS4ConnectError
carrying it. -/
def negotiate_socks4_userid (host : List Char) (port : Nat)
    (args : Option (List (List Char × List Char))) (input : List Nat) :
    SocksRun :=
  match ipv4Parse host with
  | none =>
    ⟨[], .error (.valueError ("SOCKS4 only supports IPv4 address".data))⟩
  | some (a, b, c, d) =>
    match (if argsTruthy args then encode_args (args.getD [])
        else .ok []) with
    | .error e => ⟨[], .error e⟩
    | .ok argsBytes =>
      match intToBytes 2 port with
      | .error e => ⟨[], .error e⟩
      | .ok portBytes =>
        let req := [4, 1] ++ portBytes ++ [a, b, c, d] ++ argsBytes ++ [0]
        match readExactly 8 input with
        | none => ⟨req, .error .incompleteReadError⟩
        | some (buf, rest) =>
          if buf.head? ≠ some 0 then ⟨req, .error .assertionError⟩
          else
            match socks4ReplyOfByte (buf.getD 1 0) with
            | none =>
              ⟨req, .error (.valueError ("not a valid SOCKS4Reply".data))⟩
            | some .granted => ⟨req, .ok rest⟩
            | some r => ⟨req, .error (.socks4ConnectError r)⟩

-- Sanity checks of the SOCKS models, including spec scenario 4 shapes.
example : encode_args [("cert".data, "XYZ".data)] =
    .ok ("cert=XYZ".data.map Char.toNat) := by decide
example : encode_args [("a=b".data, "c;d".data)] =
    .ok ("a\\=b=c\\;d".data.map Char.toNat) := by decide
example : socks5AuthPhase none [5, 0] = ⟨[5, 1, 0], .ok []⟩ := by decide
example : socks5AuthPhase (some [("cert".data, "XYZ".data)]) [5, 2, 1, 0] =
    ⟨[5, 1, 2, 1, 8] ++ ("cert=XYZ".data.map Char.toNat) ++ [1, 0],
      .ok []⟩ := by decide
example : negotiate_socks4_userid ("1.2.3.4".data) 80 none
    [0, 0x5A, 0, 0, 0, 0, 0, 0] =
    ⟨[4, 1, 0, 80, 1, 2, 3, 4, 0], .ok []⟩ := by decide
example : negotiate_socks4_userid ("example.com".data) 80 none [] =
    ⟨[], .error (.valueError ("SOCKS4 only supports IPv4 address".data))⟩ := by
  decide

/-- Claim C5: for a non-empty args dict whose encoding e is at most 510
bytes, the username sent is the first at most 255 bytes of e and the
password the remainder, or the single NUL sentinel when the remainder is
empty, and the username concatenated with the password stripped of the
sentinel reconstructs e; when e exceeds 510 bytes, ValueError is raised
before anything is written to the stream.  The modelled accepting server
replies 5, 2 to the greeting and 1, 0 to the sub-negotiation. -/
theorem socks5_args_packing (args : List (List Char × List Char))
    (e : List Nat) (hargs : args ≠ []) (henc : encode_args args = .ok e) :
    (510 < e.length →
      ∀ input, socks5AuthPhase (some args) input =
        ⟨[], .error (.valueError ("Encoded args too long".data))⟩) ∧
    (e.length ≤ 510 →
      (∀ rest, socks5AuthPhase (some args) (5 :: 2 :: 1 :: 0 :: rest) =
        ⟨[5, 1, 2] ++ 1 :: (e.take 255).length :: e.take 255 ++
          (socksPassword e).length :: socksPassword e, .ok rest⟩) ∧
      e.take 255 ++ (if e.drop 255 = [] then [] else socksPassword e) = e) := by
  have htruthy : argsTruthy (some args) = true := by
    simp [argsTruthy, hargs]
  refine ⟨fun hlong input => ?_, fun hshort => ⟨fun rest => ?_, ?_⟩⟩
  · simp only [socks5AuthPhase, htruthy, if_true, Option.getD_some, henc]
    rw [if_pos (by omega)]
  · simp only [socks5AuthPhase, htruthy, if_true, Option.getD_some, henc]
    rw [if_neg (by omega)]
    simp [readExactly, List.take_succ_cons, List.drop_succ_cons]
  · by_cases hd : e.drop 255 = []
    · rw [if_pos hd]
      conv_rhs => rw [← List.take_append_drop 255 e, hd]
    · rw [if_neg hd]
      simp only [socksPassword, if_neg hd]
      exact List.take_append_drop 255 e

/-- Witness for claim C5 at a concrete one-pair args dict. -/
theorem socks5_args_packing_witness :
    socks5AuthPhase (some [("cert".data, "XYZ".data)]) [5, 2, 1, 0] =
      ⟨[5, 1, 2] ++ 1 :: (("cert=XYZ".data.map Char.toNat).take 255).length ::
          ("cert=XYZ".data.map Char.toNat).take 255 ++
          (socksPassword ("cert=XYZ".data.map Char.toNat)).length ::
          socksPassword ("cert=XYZ".data.map Char.toNat), .ok []⟩ ∧
    ("cert=XYZ".data.map Char.toNat).take 255 ++
      (if ("cert=XYZ".data.map Char.toNat).drop 255 = [] then []
       else socksPassword ("cert=XYZ".data.map Char.toNat)) =
      "cert=XYZ".data.map Char.toNat :=
  ⟨((socks5_args_packing [("cert".data, "XYZ".data)]
      ("cert=XYZ".data.map Char.toNat) (by decide) (by decide)).2
      (by decide)).1 [],
    ((socks5_args_packing [("cert".data, "XYZ".data)]
      ("cert=XYZ".data.map Char.toNat) (by decide) (by decide)).2
      (by decide)).2⟩

/-- Claim C6: the greeting offers exactly one authentication method: with
falsy args (None or empty) the bytes written by the authentication phase
are exactly 5, 1, 0 (SOCKS5, one method, NO_AUTH) whatever the server
replies, so no password field and no NUL sentinel is ever sent; with
truthy args either nothing is written (the encoding failed or was too
long) or the written stream starts with 5, 1, 2 (one method,
USERNAME_PASSWORD); and the NUL sentinel is the password exactly on the
empty remainder, the remainder itself otherwise. -/
theorem socks5_auth_method_selection
    (args : Option (List (List Char × List Char))) (input : List Nat) :
    (argsTruthy args = false →
      (socks5AuthPhase args input).written = [5, 1, 0]) ∧
    (argsTruthy args = true →
      (socks5AuthPhase args input).written = [] ∨
      (socks5AuthPhase args input).written.take 3 = [5, 1, 2]) ∧
    (∀ e : List Nat, (e.drop 255 = [] → socksPassword e = [0]) ∧
      (e.drop 255 ≠ [] → socksPassword e = e.drop 255)) := by
  refine ⟨fun hf => ?_, fun ht => ?_, fun e => ⟨fun hd => ?_, fun hd => ?_⟩⟩
  · simp only [socks5AuthPhase, hf, Bool.false_eq_true, if_false]
    split
    · rfl
    · split
      · rfl
      · split
        · rfl
        · rfl
  · simp only [socks5AuthPhase, ht, if_true]
    split
    · exact Or.inl rfl
    · split
      · exact Or.inl rfl
      · refine Or.inr ?_
        split
        · rfl
        · split
          · rfl
          · split
            · rfl
            · split
              · rfl
              · split
                · rfl
                · split
                  · rfl
                  · rfl
  · simp [socksPassword, hd]
  · simp [socksPassword, hd]

/-- Witness for claim C6, discharging each branch hypothesis at concrete
inputs: empty args write exactly the NO_AUTH greeting, and a one-pair
args dict writes a stream starting with the USERNAME_PASSWORD greeting. -/
theorem socks5_auth_method_selection_witness :
    (socks5AuthPhase none [5, 0]).written = [5, 1, 0] ∧
    ((socks5AuthPhase (some [("k".data, "v".data)]) [5, 2, 1, 0]).written
        = [] ∨
      (socks5AuthPhase (some [("k".data, "v".data)])
        [5, 2, 1, 0]).written.take 3 = [5, 1, 2]) :=
  ⟨(socks5_auth_method_selection none [5, 0]).1 rfl,
    (socks5_auth_method_selection (some [("k".data, "v".data)])
      [5, 2, 1, 0]).2.1 (by decide)⟩

/-- Claim C7 counterexample: with the valid IPv4 host 1.2.3.4 and an
8-byte reply whose version byte is 0 and whose status byte 0x00 differs
from GRANTED 0x5A but is not a SOCKS4Reply member, the code raises
ValueError from the enum lookup, not PTSOCKS4ConnectError as the claim
states for every status byte other than 0x5A. -/
theorem socks4_unknown_status_raises_valueerror :
    negotiate_socks4_userid ("1.2.3.4".data) 80 none
        [0, 0, 0, 0, 0, 0, 0, 0] =
      ⟨[4, 1, 0, 80, 1, 2, 3, 4, 0],
        .error (.valueError ("not a valid SOCKS4Reply".data))⟩ := by
  decide

/-- Claim C7 amended: a host that is not an IPv4 literal raises ValueError
before anything is written; otherwise, after the 8-byte reply with
version byte 0 is read, the outcome is determined by the status byte:
GRANTED 0x5A returns normally, the recognized failure codes 0x5B, 0x5C
and 0x5D raise PTSOCKS4ConnectError carrying the reply, and any
unrecognized status byte raises ValueError from the SOCKS4Reply lookup. -/
theorem socks4_negotiation_characterization (host : List Char) (port : Nat)
    (args : Option (List (List Char × List Char))) (input : List Nat) :
    (ipv4Parse host = none →
      negotiate_socks4_userid host port args input =
        ⟨[], .error (.valueError ("SOCKS4 only supports IPv4 address".data))⟩) ∧
    (∀ a b c d e pb b1 m rest, ipv4Parse host = some (a, b, c, d) →
      (if argsTruthy args then encode_args (args.getD [])
        else .ok []) = .ok e →
      intToBytes 2 port = .ok pb →
      input = 0 :: b1 :: (m ++ rest) → m.length = 6 →
      negotiate_socks4_userid host port args input =
        ⟨[4, 1] ++ pb ++ [a, b, c, d] ++ e ++ [0],
          match socks4ReplyOfByte b1 with
          | none => .error (.valueError ("not a valid SOCKS4Reply".data))
          | some .granted => .ok rest
          | some r => .error (.socks4ConnectError r)⟩) := by
  constructor
  · intro hip
    simp only [negotiate_socks4_userid, hip]
  · intro a b c d e pb b1 m rest hip he hpb hin hm
    simp only [negotiate_socks4_userid, hip, he, hpb]
    subst hin
    have htk : (m ++ rest).take 6 = m := by
      rw [← hm]; exact List.take_left m rest
    have hdp : (m ++ rest).drop 6 = rest := by
      rw [← hm]; exact List.drop_left m rest
    have hread : readExactly 8 (0 :: b1 :: (m ++ rest)) =
        some (0 :: b1 :: m, rest) := by
      unfold readExactly
      rw [if_pos (by simp [hm])]
      simp [List.take_succ_cons, List.drop_succ_cons, htk, hdp]
    rw [hread]
    simp only [List.head?_cons, List.getD, List.get?_cons_succ,
      List.get?_cons_zero, Option.getD_some, ne_eq]
    rw [if_neg (by simp)]
    cases hr : socks4ReplyOfByte b1 with
    | none => rfl
    | some r => cases r <;> rfl

/-- Witness for the amended claim C7 at concrete runs: a DNS-name host
raises before writing, and a rejected reply 0x5B raises
PTSOCKS4ConnectError carrying REJECTED_OR_FAILED. -/
theorem socks4_negotiation_characterization_witness :
    negotiate_socks4_userid ("example.com".data) 80 none [] =
      ⟨[], .error (.valueError ("SOCKS4 only supports IPv4 address".data))⟩ ∧
    negotiate_socks4_userid ("1.2.3.4".data) 80 none
        [0, 0x5B, 9, 9, 9, 9, 9, 9] =
      ⟨[4, 1, 0, 80, 1, 2, 3, 4, 0],
        .error (.socks4ConnectError .rejectedOrFailed)⟩ :=
  ⟨(socks4_negotiation_characterization ("example.com".data) 80 none []).1
      (by decide),
    (socks4_negotiation_characterization ("1.2.3.4".data) 80 none
        [0, 0x5B, 9, 9, 9, 9, 9, 9]).2 1 2 3 4 [] [0, 80] 0x5B
      [9, 9, 9, 9, 9, 9] [] (by decide) (by decide) (by decide) rfl rfl⟩

/-! ## SHA-256 and HMAC

Executable embedding of hashlib sha256 and hmac.digest(key, msg, sha256)
as used by adapters.SafeCookieServerAuthenticator.  Words are naturals
reduced modulo 2 to the 32. -/

/-- Truncation to 32 bits. -/
def w32 (n : Nat) : Nat := n % 4294967296

/-- Right rotation of a 32-bit word. -/
def rotr32 (k x : Nat) : Nat := w32 ((x >>> k) ||| (x <<< (32 - k)))

/-- The SHA-256 choice function; complement written as xor with the
32-bit mask. -/
def shaCh (x y z : Nat) : Nat := (x &&& y) ^^^ ((x ^^^ 4294967295) &&& z)

/-- The SHA-256 majority function. -/
def shaMaj (x y z : Nat) : Nat := (x &&& y) ^^^ (x &&& z) ^^^ (y &&& z)

def bigSigma0 (x : Nat) : Nat := rotr32 2 x ^^^ rotr32 13 x ^^^ rotr32 22 x

def bigSigma1 (x : Nat) : Nat := rotr32 6 x ^^^ rotr32 11 x ^^^ rotr32 25 x

def smallSigma0 (x : Nat) : Nat := rotr32 7 x ^^^ rotr32 18 x ^^^ (x >>> 3)

def smallSigma1 (x : Nat) : Nat := rotr32 17 x ^^^ rotr32 19 x ^^^ (x >>> 10)

/-- The 64 SHA-256 round constants of FIPS 180-4, written in decimal. -/
def shaK : List Nat :=
  [1116352408, 1899447441, 3049323471, 3921009573, 961987163, 1508970993,
   2453635748, 2870763221, 3624381080, 310598401, 607225278, 1426881987,
   1925078388, 2162078206, 2614888103, 3248222580, 3835390401, 4022224774,
   264347078, 604807628, 770255983, 1249150122, 1555081692, 1996064986,
   2554220882, 2821834349, 2952996808, 3210313671, 3336571891, 3584528711,
   113926993, 338241895, 666307205, 773529912, 1294757372, 1396182291,
   1695183700, 1986661051, 2177026350, 2456956037, 2730485921, 2820302411,
   3259730800, 3345764771, 3516065817, 3600352804, 4094571909, 275423344,
   430227734, 506948616, 659060556, 883997877, 958139571, 1322822218,
   1537002063, 1747873779, 1955562222, 2024104815, 2227730452, 2361852424,
   2428436474, 2756734187, 3204031479, 3329325298]

/-- The SHA-256 initial hash state of FIPS 180-4, written in decimal. -/
def shaH0 : List Nat :=
  [1779033703, 3144134277, 1013904242, 2773480762, 1359893119, 2600822924,
   528734635, 1541459225]

/-- Extension of the 16-word block to the 64-word message schedule; the
fuel counts the remaining words to append (48). -/
def shaExtendLoop : Nat → List Nat → List Nat
  | 0, w => w
  | fuel + 1, w =>
    let i := w.length
    let x := w32 (w.getD (i - 16) 0 + smallSigma0 (w.getD (i - 15) 0) +
      w.getD (i - 7) 0 + smallSigma1 (w.getD (i - 2) 0))
    shaExtendLoop fuel (w ++ [x])

/-- One SHA-256 round on the eight-word working state. -/
def shaRound (st : List Nat) (kw : Nat) : List Nat :=
  match st with
  | [a, b, c, d, e, f, g, h] =>
    let t1 := w32 (h + bigSigma1 e + shaCh e f g + kw)
    let t2 := w32 (bigSigma0 a + shaMaj a b c)
    [w32 (t1 + t2), a, b, c, w32 (d + t1), e, f, g]
  | other => other

/-- Compression of one 16-word block into the hash state. -/
def shaCompress (h : List Nat) (block : List Nat) : List Nat :=
  let w := shaExtendLoop 48 block
  let kws := List.zipWith (fun k wi => w32 (k + wi)) shaK w
  let st := kws.foldl shaRound h
  List.zipWith (fun x y => w32 (x + y)) h st

/-- Big-endian grouping of bytes into 32-bit words. -/
def bytesToWords : List Nat → List Nat
  | b0 :: b1 :: b2 :: b3 :: rest =>
    (((b0 * 256 + b1) * 256 + b2) * 256 + b3) :: bytesToWords rest
  | _ => []

/-- Big-endian serialization of 32-bit words into bytes. -/
def wordsToBytes (ws : List Nat) : List Nat :=
  (ws.map (fun w =>
    [(w >>> 24) % 256, (w >>> 16) % 256, (w >>> 8) % 256, w % 256])).flatten

/-- SHA-256 padding: the 0x80 byte, zeros up to 56 modulo 64, and the
bit length in eight big-endian bytes. -/
def shaPad (msg : List Nat) : List Nat :=
  let L := msg.length
  let k := (119 - (L % 64)) % 64
  msg ++ 128 :: List.replicate k 0 ++
    (List.range 8).map (fun i => ((8 * L) >>> (8 * (7 - i))) % 256)

/-- Block-wise processing of the padded message; the fuel is the number
of 64-byte blocks. -/
def shaProcessBlocks : Nat → List Nat → List Nat → List Nat
  | 0, h, _ => h
  | fuel + 1, h, msg =>
    shaProcessBlocks fuel (shaCompress h (bytesToWords (msg.take 64)))
      (msg.drop 64)

/-- hashlib sha256 digest of a byte list. -/
def sha256 (msg : List Nat) : List Nat :=
  let padded := shaPad msg
  wordsToBytes (shaProcessBlocks (padded.length / 64) shaH0 padded)

/-- hmac.digest(key, msg, sha256): block size 64. -/
def hmacSha256 (key msg : List Nat) : List Nat :=
  let k0 := if 64 < key.length then sha256 key else key
  let k1 := k0 ++ List.replicate (64 - k0.length) 0
  let ipadKey := k1.map (fun b => b ^^^ 0x36)
  let opadKey := k1.map (fun b => b ^^^ 0x5c)
  sha256 (opadKey ++ sha256 (ipadKey ++ msg))

-- The embedding matches the FIPS 180 and RFC 4231 test vectors.
example : sha256 [] =
    [0xe3, 0xb0, 0xc4, 0x42, 0x98, 0xfc, 0x1c, 0x14, 0x9a, 0xfb, 0xf4, 0xc8,
     0x99, 0x6f, 0xb9, 0x24, 0x27, 0xae, 0x41, 0xe4, 0x64, 0x9b, 0x93, 0x4c,
     0xa4, 0x95, 0x99, 0x1b, 0x78, 0x52, 0xb8, 0x55] := by decide

example : sha256 ("abc".data.map Char.toNat) =
    [0xba, 0x78, 0x16, 0xbf, 0x8f, 0x01, 0xcf, 0xea, 0x41, 0x41, 0x40, 0xde,
     0x5d, 0xae, 0x22, 0x23, 0xb0, 0x03, 0x61, 0xa3, 0x96, 0x17, 0x7a, 0x9c,
     0xb4, 0x10, 0xff, 0x61, 0xf2, 0x00, 0x15, 0xad] := by decide

example : hmacSha256 ("Jefe".data.map Char.toNat)
    ("what do ya want for nothing?".data.map Char.toNat) =
    [0x5b, 0xdc, 0xc1, 0x46, 0xbf, 0x60, 0x75, 0x4e, 0x6a, 0x04, 0x24, 0x26,
     0x08, 0x95, 0x75, 0xc7, 0x5a, 0x00, 0x3f, 0x08, 0x9d, 0x27, 0x39, 0x83,
     0x9d, 0xec, 0x58, 0xb9, 0x64, 0xec, 0x38, 0x43] := by decide

/-! ## adapters.SafeCookieServerAuthenticator -/

/-- adapters.SafeCookieServerAuthenticator (lines 673-693): carries the 32
cookie bytes drawn from secrets.token_bytes at construction. -/
structure SafeCookieServerAuthenticator where
  cookie : List Nat
  deriving DecidableEq, Repr

/-- Class attribute cookie_static_header (line 680): 32 bytes of ASCII
text ending in the newline byte 10. -/
def cookieStaticHeader : List Nat :=
  "! Extended ORPort Auth Cookie !\n".data.map Char.toNat

/-- Class attribute server_hash_header (line 681). -/
def serverHashHeader : List Nat :=
  "ExtORPort authentication server-to-client hash".data.map Char.toNat

/-- Class attribute client_hash_header (line 682). -/
def clientHashHeader : List Nat :=
  "ExtORPort authentication client-to-server hash".data.map Char.toNat

/-- Method hash (lines 687-688): hmac.digest(self._cookie, msg, sha256). -/
def SafeCookieServerAuthenticator.hash (a : SafeCookieServerAuthenticator)
    (msg : List Nat) : List Nat :=
  hmacSha256 a.cookie msg

/-- Method write_cookie_file (lines 690-693): the file receives the
static header and then the cookie, nothing else. -/
def SafeCookieServerAuthenticator.write_cookie_file
    (a : SafeCookieServerAuthenticator) : List Nat :=
  cookieStaticHeader ++ a.cookie

/-- Method authenticate (lines 695-721): the server nonce drawn from
secrets.token_bytes is passed explicitly, the peer is an input byte list,
and the result is the pair of the bytes written and the returned boolean
(or the exception raised by readexactly).  ExtOrPortAuthTypes values:
SAFE_COOKIE 1, END_AUTH_TYPES 0.  hmac.compare_digest on two 32-byte
digests is equality.  Note the early return False when the client offers
an auth type other than SAFE_COOKIE: nothing is written past the two
offered-method bytes on that path. -/
def SafeCookieServerAuthenticator.authenticate
    (a : SafeCookieServerAuthenticator) (serverNonce : List Nat)
    (input : List Nat) : List Nat × Except PyErr Bool :=
  let w0 : List Nat := [1, 0]
  match readExactly 1 input with
  | none => (w0, .error .incompleteReadError)
  | some (t, r1) =>
    if t ≠ [1] then (w0, .ok false)
    else
      match readExactly 32 r1 with
      | none => (w0, .error .incompleteReadError)
      | some (clientNonce, r2) =>
        let serverHash := a.hash (serverHashHeader ++ clientNonce ++
          serverNonce)
        let w1 := w0 ++ serverHash ++ serverNonce
        match readExactly 32 r2 with
        | none => (w1, .error .incompleteReadError)
        | some (clientHash, _) =>
          let expected := a.hash (clientHashHeader ++ clientNonce ++
            serverNonce)
          (w1 ++ [if clientHash = expected then 1 else 0],
            .ok (decide (clientHash = expected)))

/-- readexactly on an input starting with a block of exactly the wanted
length. -/
theorem readExactly_append (n : Nat) (xs ys : List Nat)
    (h : xs.length = n) : readExactly n (xs ++ ys) = some (xs, ys) := by
  unfold readExactly
  subst h
  rw [if_pos (by simp)]
  rw [List.take_left, List.drop_left]

/-- Claim C3 counterexample: when the client answers with auth type byte
0 (END_AUTH_TYPES) instead of SAFE_COOKIE, authenticate completes with
False having written only the two offered-method bytes 1, 0: no 0x00
status byte follows, contrary to the claim that every completed run
writes a final status byte, 0x00 on this failure included. -/
theorem authenticate_wrong_authtype_writes_no_status :
    (SafeCookieServerAuthenticator.mk (List.replicate 32 0)).authenticate
        (List.replicate 32 0) [0] =
      ([1, 0], .ok false) ∧ ([1, 0] : List Nat) ≠ [1, 0, 0] := by
  constructor
  · decide
  · decide

/-- Claim C3 amended: on a run where the client offers SAFE_COOKIE and
supplies a 32-byte nonce and a 32-byte hash, authenticate returns True
exactly when the client hash equals HMAC-SHA256 of the cookie over the
client-to-server header, the client nonce and the server nonce, and the
bytes written are the offer, the server hash, the server nonce and a
final status byte matching the result, 1 on success and 0 on failure;
but when the client offers any other auth type the run returns False
with no status byte written, so a status byte is only guaranteed on runs
that reach the hash comparison. -/
theorem authenticate_hash_characterization
    (a : SafeCookieServerAuthenticator)
    (serverNonce clientNonce clientHash rest : List Nat)
    (hcn : clientNonce.length = 32) (hch : clientHash.length = 32) :
    a.authenticate serverNonce (1 :: (clientNonce ++ (clientHash ++ rest))) =
      ([1, 0] ++ a.hash (serverHashHeader ++ clientNonce ++ serverNonce) ++
        serverNonce ++
        [if clientHash =
            a.hash (clientHashHeader ++ clientNonce ++ serverNonce)
         then 1 else 0],
       .ok (decide (clientHash =
         a.hash (clientHashHeader ++ clientNonce ++ serverNonce)))) ∧
    (∀ t r, t ≠ 1 →
      a.authenticate serverNonce (t :: r) = ([1, 0], .ok false)) := by
  constructor
  · have h1 : readExactly 1 (1 :: (clientNonce ++ (clientHash ++ rest))) =
        some ([1], clientNonce ++ (clientHash ++ rest)) :=
      readExactly_append 1 [1] _ rfl
    have h2 : readExactly 32 (clientNonce ++ (clientHash ++ rest)) =
        some (clientNonce, clientHash ++ rest) :=
      readExactly_append 32 _ _ hcn
    have h3 : readExactly 32 (clientHash ++ rest) = some (clientHash, rest) :=
      readExactly_append 32 _ _ hch
    simp only [SafeCookieServerAuthenticator.authenticate, h1, h2, h3]
    simp [List.append_assoc]
  · intro t r ht
    have h1 : readExactly 1 (t :: r) = some ([t], r) :=
      readExactly_append 1 [t] r rfl
    simp only [SafeCookieServerAuthenticator.authenticate, h1]
    rw [if_pos (by simp [ht])]

/-- Witness for the amended claim C3: a concrete cookie, nonces and
client hash of length 32. -/
theorem authenticate_hash_characterization_witness :
    (List.replicate 32 2 : List Nat).length = 32 ∧
    (SafeCookieServerAuthenticator.mk (List.replicate 32 7)).authenticate
        (List.replicate 32 1)
        (1 :: (List.replicate 32 2 ++ (List.replicate 32 3 ++ []))) =
      ([1, 0] ++ (SafeCookieServerAuthenticator.mk
          (List.replicate 32 7)).hash
          (serverHashHeader ++ List.replicate 32 2 ++ List.replicate 32 1) ++
        List.replicate 32 1 ++
        [if (List.replicate 32 3 : List Nat) =
            (SafeCookieServerAuthenticator.mk (List.replicate 32 7)).hash
              (clientHashHeader ++ List.replicate 32 2 ++
                List.replicate 32 1)
         then 1 else 0],
       .ok (decide ((List.replicate 32 3 : List Nat) =
         (SafeCookieServerAuthenticator.mk (List.replicate 32 7)).hash
           (clientHashHeader ++ List.replicate 32 2 ++
             List.replicate 32 1)))) :=
  ⟨by decide,
    (authenticate_hash_characterization _ _ _ _ [] (by decide) (by decide)).1⟩

/-- Claim C9: the cookie file is exactly 64 bytes, the 32-byte static
header followed by the 32 cookie bytes with nothing appended (in
particular no trailing newline); the header ends in the single newline
byte 10; and the cookie bytes stored in the file are exactly the bytes
keying the HMAC used by authenticate through the hash method. -/
theorem cookie_file_layout (a : SafeCookieServerAuthenticator)
    (hlen : a.cookie.length = 32) :
    a.write_cookie_file.length = 64 ∧
    a.write_cookie_file = cookieStaticHeader ++ a.cookie ∧
    cookieStaticHeader.length = 32 ∧
    cookieStaticHeader.getLast? = some 10 ∧
    a.write_cookie_file.drop 32 = a.cookie ∧
    (∀ msg, a.hash msg = hmacSha256 (a.write_cookie_file.drop 32) msg) := by
  have hdrop : a.write_cookie_file.drop 32 = a.cookie := by
    unfold SafeCookieServerAuthenticator.write_cookie_file
    rw [show (32 : Nat) = cookieStaticHeader.length from by decide]
    exact List.drop_left _ _
  refine ⟨?_, rfl, by decide, by decide, hdrop, fun msg => by rw [hdrop]; rfl⟩
  show (cookieStaticHeader ++ a.cookie).length = 64
  rw [List.length_append, hlen]
  decide

/-- Witness for claim C9 at a concrete 32-byte cookie. -/
theorem cookie_file_layout_witness :
    (List.replicate 32 5 : List Nat).length = 32 ∧
    (SafeCookieServerAuthenticator.mk
      (List.replicate 32 5)).write_cookie_file.length = 64 ∧
    (SafeCookieServerAuthenticator.mk
        (List.replicate 32 5)).write_cookie_file.drop 32 =
      List.replicate 32 5 :=
  ⟨by decide,
    (cookie_file_layout _ (by decide)).1,
    (cookie_file_layout _ (by decide)).2.2.2.2.1⟩

/-! ## ClientAdapter stdout processing and transport slots

The per-transport slots are asyncio Futures.  Future.set_exception stores
whatever object it is handed on CPython 3.7 through 3.10 (the check that
it is an exception instance happens only when the future is awaited or
result() re-raises it; CPython 3.11 and later additionally read the
traceback attribute inside set_exception, so there the CMETHODS DONE
handler of this package dies with AttributeError and the slot can stay
pending).  The model below follows the 3.7-3.10 behaviour: a stored
non-exception object makes result() raise TypeError with the CPython
message for raising a non-exception. -/

/-- adapters.ClientTransport (lines 35-46): scheme, proxy host (the
hostname part from parse_hostport, possibly None) and proxy port. -/
structure ClientTransport where
  scheme : List Char
  host : Option (List Char)
  port : Nat
  deriving DecidableEq, Repr

/-- Payload handed to Future.set_exception: an exception instance, or a
plain str object as in the CMETHODS DONE handler. -/
inductive ExcPayload where
  | exc (e : PyErr)
  | strObj (s : List Char)
  deriving DecidableEq, Repr

/-- State of one asyncio Future: a single-assignment cell. -/
inductive FutState (α : Type) where
  | pending
  | result (a : α)
  | excSet (p : ExcPayload)
  deriving DecidableEq, Repr

/-- Future.done(). -/
def futDone {α : Type} : FutState α → Bool
  | .pending => false
  | _ => true

/-- Future.result(): InvalidStateError while pending, the stored result,
or re-raising the stored payload: raising a stored str object is a
TypeError in Python. -/
def futResult {α : Type} : FutState α → Except PyErr α
  | .pending => .error (.invalidStateError ("Result is not set".data))
  | .result a => .ok a
  | .excSet (.exc e) => .error e
  | .excSet (.strObj _) =>
    .error (.typeError ("exceptions must derive from BaseException".data))

/-- Future.set_result: InvalidStateError when the future is done. -/
def futSetResult {α : Type} (f : FutState α) (a : α) :
    Except PyErr (FutState α) :=
  match f with
  | .pending => .ok (.result a)
  | _ => .error (.invalidStateError ("invalid state".data))

/-- Future.set_exception on CPython 3.7-3.10: stores the payload as-is;
InvalidStateError when the future is done. -/
def futSetException {α : Type} (f : FutState α) (p : ExcPayload) :
    Except PyErr (FutState α) :=
  match f with
  | .pending => .ok (.excSet p)
  | _ => .error (.invalidStateError ("invalid state".data))

/-- The state of a ClientAdapter relevant to transport slots: whether the
subprocess handle is set (self._process), the stopping flag, the accepted
VERSION, the readiness future and the per-transport futures in insertion
order. -/
structure ClientAdapterState where
  processStarted : Bool
  stopping : Bool
  acceptedVersion : Option (List Char)
  ready : FutState Unit
  transports : List (List Char × FutState ClientTransport)
  deriving DecidableEq, Repr

/-- Dictionary lookup self._transports[name]. -/
def slotLookup (ts : List (List Char × FutState ClientTransport))
    (name : List Char) : Option (FutState ClientTransport) :=
  (ts.find? (fun kv => kv.1 == name)).map (fun kv => kv.2)

/-- Replacing the future stored under a name (the mutation of the Future
object observed through the dict). -/
def slotUpdate (ts : List (List Char × FutState ClientTransport))
    (name : List Char) (f : FutState ClientTransport) :
    List (List Char × FutState ClientTransport) :=
  ts.map (fun kv => if kv.1 = name then (kv.1, f) else kv)

/-- str.split(sep=space, maxsplit one step): the text before the first
space and the text after it, or none when there is no space. -/
def splitSpaceOnce (s : List Char) : Option (List Char × List Char) :=
  if ' ' ∈ s then some (partBefore ' ' s, partAfter ' ' s) else none

/-- ClientAdapter._process_stdout_line (lines 382-410) together with the
base dispatcher _BasePTAdapter._process_stdout_line (lines 196-211), on an
already keyword-split line: the updated state plus the exception the
handler raised, if any (the caller catches it).  PROXY-ERROR, VERSION-ERROR
and ENV-ERROR raise RuntimeError; PROXY and CMETHODS assert their optargs
is DONE; CMETHOD parses transport, scheme and host:port and resolves the
slot; CMETHOD-ERROR resolves the slot with a RuntimeError; CMETHODS DONE
resolves the readiness future and hands every still-pending slot the
plain string PT ignored transport; unknown keywords only log. -/
def processStdoutLine (st : ClientAdapterState) (kw optargs : List Char) :
    ClientAdapterState × Option PyErr :=
  if kw = "PROXY-ERROR".data then
    (st, some (.runtimeError ("PT PROXY-ERROR".data)))
  else if kw = "PROXY".data then
    if optargs = "DONE".data then (st, none) else (st, some .assertionError)
  else if kw = "CMETHOD-ERROR".data then
    let transport := partBefore ' ' optargs
    let message := partAfter ' ' optargs
    match slotLookup st.transports transport with
    | none => (st, some .keyError)
    | some f =>
      match futSetException f
          (.exc (.runtimeError ("CMETHOD-ERROR: ".data ++ message))) with
      | .ok f2 =>
        ({ st with transports := slotUpdate st.transports transport f2 },
          none)
      | .error e => (st, some e)
  else if kw = "CMETHOD".data then
    match splitSpaceOnce optargs with
    | none => (st, some (.valueError ("not enough values to unpack".data)))
    | some (transport, r1) =>
      match splitSpaceOnce r1 with
      | none => (st, some (.valueError ("not enough values to unpack".data)))
      | some (scheme, hostport) =>
        match parse_hostport hostport with
        | .error e => (st, some e)
        | .ok (h, p) =>
          match slotLookup st.transports transport with
          | none => (st, some .keyError)
          | some f =>
            match futSetResult f ⟨scheme, h, p⟩ with
            | .ok f2 =>
              ({ st with
                  transports := slotUpdate st.transports transport f2 },
                none)
            | .error e => (st, some e)
  else if kw = "CMETHODS".data then
    if optargs ≠ "DONE".data then (st, some .assertionError)
    else if futDone st.ready then (st, some .assertionError)
    else
      ({ st with
          ready := .result (),
          transports := st.transports.map (fun kv =>
            if futDone kv.2 then kv
            else (kv.1, .excSet (.strObj ("PT ignored transport".data)))) },
        none)
  else if kw = "VERSION-ERROR".data then
    (st, some (.runtimeError ("PT VERSION-ERROR".data)))
  else if kw = "VERSION".data then
    if st.acceptedVersion ≠ none then (st, some .assertionError)
    else ({ st with acceptedVersion := some optargs }, none)
  else if kw = "ENV-ERROR".data then
    (st, some (.runtimeError ("PT ENV-ERROR".data)))
  else (st, none)

/-- One iteration of _process_stdout (lines 178-193) after keyword
splitting: an exception from the line handler is caught, logged, and
stored into the readiness future when that future is not yet done. -/
def processLine (st : ClientAdapterState) (kw optargs : List Char) :
    ClientAdapterState :=
  match processStdoutLine st kw optargs with
  | (st2, none) => st2
  | (st2, some e) =>
    if futDone st2.ready then st2
    else { st2 with ready := .excSet (.exc e) }

/-- Folding a whole stdout transcript through the line handler. -/
def processLines (st : ClientAdapterState)
    (stdoutLines : List (List Char × List Char)) : ClientAdapterState :=
  stdoutLines.foldl (fun s kv => processLine s kv.1 kv.2) st

/-- ClientAdapter.get_transport (lines 461-479): _check_running raises
InvalidStateError when the subprocess has not been started or when the
stopping flag is set; then the slot is looked up (KeyError for a name not
configured) and its result returned, re-raising whatever the slot
stores. -/
def get_transport (st : ClientAdapterState) (transport : List Char) :
    Except PyErr ClientTransport :=
  if st.processStarted = false then
    .error (.invalidStateError ("PT has not yet started".data))
  else if st.stopping = true then
    .error (.invalidStateError ("PT is stopping or has stopped".data))
  else
    match slotLookup st.transports transport with
    | none => .error .keyError
    | some f => futResult f

/-- The state change at the head of stop() (lines 267-279): stop()
requires a running adapter through _check_running and sets the stopping
flag before doing anything else. -/
def stopBegin (st : ClientAdapterState) : Except PyErr ClientAdapterState :=
  if st.processStarted = false then
    .error (.invalidStateError ("PT has not yet started".data))
  else if st.stopping = true then
    .error (.invalidStateError ("PT is stopping or has stopped".data))
  else .ok { st with stopping := true }

-- Sanity check: the CMETHOD happy path of spec scenario 1.
example :
    get_transport
      (processLines
        ⟨true, false, none, .pending, [("obfs4".data, .pending)]⟩
        [("VERSION".data, "1".data),
         ("CMETHOD".data, "obfs4 socks5 127.0.0.1:54321".data),
         ("CMETHODS".data, "DONE".data)])
      ("obfs4".data) =
    .ok ⟨"socks5".data, some ("127.0.0.1".data), 54321⟩ := by decide

/-- Claim C1 evaluated at the failing input: a started ClientAdapter
configured with the single transport obfs4 receives VERSION 1 and then
CMETHODS DONE with no CMETHOD line.  The slot does resolve: it stores the
plain string PT ignored transport handed to Future.set_exception (kept
as-is by CPython 3.7-3.10).  But the subsequent get_transport then raises
TypeError with the message exceptions must derive from BaseException —
not an error conveying that the transport was ignored, because the
handler passed a str where an exception instance was required. -/
theorem cmethods_done_ignored_slot_str_exception :
    slotLookup
        (processLines
          ⟨true, false, none, .pending, [("obfs4".data, .pending)]⟩
          [("VERSION".data, "1".data),
           ("CMETHODS".data, "DONE".data)]).transports ("obfs4".data) =
      some (.excSet (.strObj ("PT ignored transport".data))) ∧
    get_transport
        (processLines
          ⟨true, false, none, .pending, [("obfs4".data, .pending)]⟩
          [("VERSION".data, "1".data),
           ("CMETHODS".data, "DONE".data)])
        ("obfs4".data) =
      .error (.typeError ("exceptions must derive from BaseException".data)) := by
  constructor
  · decide
  · decide

/-- Claim C10: once stop() has begun (a successful stopBegin, which
requires a started, not yet stopping adapter and sets the stopping flag),
get_transport raises InvalidStateError for every transport name and every
slot content, including slots already resolved ready, because
_check_running requires the adapter to be running rather than merely
started. -/
theorem get_transport_after_stop_raises (st st2 : ClientAdapterState)
    (name : List Char) (h : stopBegin st = .ok st2) :
    get_transport st2 name =
      .error (.invalidStateError ("PT is stopping or has stopped".data)) := by
  unfold stopBegin at h
  split at h
  · cases h
  · split at h
    · cases h
    · rename_i h1 h2
      cases h
      unfold get_transport
      rw [if_neg (by simpa using h1)]
      simp

/-- Witness for claim C10: a started adapter whose single slot is already
resolved ready still gets InvalidStateError from get_transport after
stop() begins. -/
theorem get_transport_after_stop_raises_witness :
    stopBegin ⟨true, false, some ("1".data), .result (),
        [("obfs4".data,
          .result ⟨"socks5".data, some ("127.0.0.1".data), 54321⟩)]⟩ =
      .ok ⟨true, true, some ("1".data), .result (),
        [("obfs4".data,
          .result ⟨"socks5".data, some ("127.0.0.1".data), 54321⟩)]⟩ ∧
    get_transport ⟨true, true, some ("1".data), .result (),
        [("obfs4".data,
          .result ⟨"socks5".data, some ("127.0.0.1".data), 54321⟩)]⟩
      ("obfs4".data) =
      .error (.invalidStateError ("PT is stopping or has stopped".data)) :=
  ⟨by decide,
    get_transport_after_stop_raises
      ⟨true, false, some ("1".data), .result (),
        [("obfs4".data,
          .result ⟨"socks5".data, some ("127.0.0.1".data), 54321⟩)]⟩
      _ _ (by decide)⟩

/-- Claim C2 evaluated at the failing input: parse_smethod_args splits on
unescaped commas and unescaped equal signs but performs no unescaping, so
the ServerTransport holding the options field ARGS:cert=abc\,def,iat-mode=0
parses its args to the dict mapping cert to abc\,def — with the backslash
retained — and iat-mode to 0.  The escaped pair does not round back to
the original value abc,def that the claim (and the spec scenario)
expects. -/
theorem parse_smethod_args_keeps_escapes :
    (ServerTransport.mk (some ("0.0.0.0".data)) 443
        (some ("ARGS:cert=abc\\,def,iat-mode=0".data))).parse_args =
      .ok [("cert".data, "abc\\,def".data), ("iat-mode".data, "0".data)] ∧
    ("abc\\,def".data : List Char) ≠ "abc,def".data := by
  constructor
  · decide
  · decide

/-- Claim C8 evaluated at the boundary input: validate_transport_name
indexes transport_name[0] before any other check, so the empty string —
an invalid name by the identifier rules — raises IndexError, not the
ValueError the claim and the docstring promise; a non-empty invalid name
does raise ValueError, and a valid name passes. -/
theorem validate_transport_name_empty_indexerror :
    validate_transport_name [] = .error .indexError ∧
    (Except.error PyErr.indexError : Except PyErr Unit) ≠
      .error (.valueError ("Invalid transport name".data)) ∧
    validate_transport_name ("4obfs".data) =
      .error (.valueError ("Invalid transport name".data)) ∧
    validate_transport_name ("obfs4".data) = .ok () := by
  refine ⟨by decide, by decide, by decide, by decide⟩

end PtAdapter
